import Mathlib

/-!
Shallow embedding of `app.py` (Indiana Truck Parking county dashboard).

The embedding models the parts of the script the specification talks about:
the click-payload sanitization and session-state machine, the left join of
daily metrics onto county geometry with zero-fill and formatted display
columns, the hourly demand aggregation (`hourly_long`), the CSV export
of the aggregated table, and the categorical map style function.

Numeric table cells are modelled over `ℚ`; a pandas `NaN` is modelled as
`Option.none` where it can flow through a computation (the supply constant
and the pre-fill view of a joined cell). Python string truthiness is
modelled by `pyTruthy`. Digits are the ASCII digits `0`-`9`, matching the
identifiers the app manipulates.
-/

namespace InParking

/-- Python truthiness of an optional string: `None` and `""` are falsy,
any non-empty string is truthy. Models `if map_state.get(...)` and
`if fips:` in `app.py`. -/
def pyTruthy : Option String → Bool
  | none => false
  | some s => !s.isEmpty

/-- `re.sub(r"\D", "", raw)`: drop every non-digit character. -/
def removeNonDigits (raw : String) : String :=
  ⟨raw.toList.filter Char.isDigit⟩

/-- `str.zfill(width)`: left-pad with `'0'` up to `width` characters
(never truncates). The Python sign-aware case does not arise here because
the input string contains only digits. -/
def zfill (width : Nat) (s : String) : String :=
  ⟨List.replicate (width - s.toList.length) '0' ++ s.toList⟩

/-- The sanitization applied to a raw popup payload at `app.py:316`:
`re.sub(r"\D", "", raw).zfill(5)`. -/
def sanitizeFips (raw : String) : String :=
  zfill 5 (removeNonDigits raw)

/-- The two session-state fields the interaction loop mutates
(`st.session_state.selected_fips`, `st.session_state.ignore_next_click`). -/
structure SessionState where
  selected_fips : Option String
  ignore_next_click : Bool
  deriving DecidableEq

/-- The click-read phase (`app.py:314-317`): if the popup payload is truthy
and the suppress-flag is false, store the sanitized payload as selection. -/
def processClicks (st : SessionState) (payload : Option String) : SessionState :=
  if pyTruthy payload && !st.ignore_next_click then
    { st with selected_fips := some (sanitizeFips (payload.getD "")) }
  else
    st

/-- The guard-reset phase (`app.py:320-321`): after the read phase, a raised
suppress-flag is lowered. -/
def resetGuard (st : SessionState) : SessionState :=
  if st.ignore_next_click then { st with ignore_next_click := false } else st

/-- One click-processing cycle of the script: read phase then guard reset. -/
def processCycle (st : SessionState) (payload : Option String) : SessionState :=
  resetGuard (processClicks st payload)

/-- The "Clear selection" button handler (`app.py:386-388`): empty the
selection and raise the suppress-flag before the rerun. -/
def clearSelection (st : SessionState) : SessionState :=
  { st with selected_fips := none, ignore_next_click := true }

/-! ## Tables: daily metrics, county geometry, joined frame -/

/-- A raw table cell of the daily metrics CSV: a number, a non-numeric
string, or a missing value (pandas `NaN`). -/
inductive Cell where
  | num (q : ℚ)
  | str (s : String)
  | na
  deriving DecidableEq

/-- `pd.to_numeric(x, errors="coerce").fillna(0)` on one cell: numbers kept,
non-numeric parse failures and missing values coerced to zero. -/
def toNumericFill0 : Cell → ℚ
  | .num q => q
  | .str _ => 0
  | .na => 0

/-- `pd.to_numeric(x, errors="coerce")` on one cell, before the fill:
`none` models the resulting `NaN`. -/
def toNumericCoerce : Cell → Option ℚ
  | .num q => some q
  | .str _ => none
  | .na => none

/-- `series.fillna(0)` on one cell read as a number: missing values become
zero, numbers are kept. (A string cell is not produced by the columns this
is applied to; it is mapped to zero to keep the function total.) -/
def cellFillna0 : Cell → ℚ
  | .num q => q
  | .str _ => 0
  | .na => 0

/-- One row of the daily metrics table (`indiana_county_daily.csv`):
the 5-digit identifier, the diagnosis label, and the numeric metric
columns accessed by name. -/
structure DailyRow where
  county_fips : String
  diagnosis : Option String
  get : String → Cell

/-- The daily metrics table: its numeric column names
(`daily.columns` minus `county_fips` and `diagnosis`) and its rows. -/
structure DailyTable where
  cols : List String
  rows : List DailyRow

/-- One county feature of the geometry collection, with its zero-padded
identifier and name. -/
structure GeomRow where
  county_fips : String
  county_name : String
  deriving DecidableEq

/-- One row of `gdf_joined`: the geometry row plus the matched daily row,
`none` when the left merge found no metrics row for this county. -/
structure JoinedRow where
  geom : GeomRow
  metrics : Option DailyRow

/-- `counties.merge(daily, on="county_fips", how="left")` (`app.py:248`):
each geometry row is kept; it is paired with every matching daily row, or
with `none` when no daily row matches. -/
def leftMerge : List GeomRow → List DailyRow → List JoinedRow
  | [], _ => []
  | g :: gs, daily =>
    (let ms := daily.filter (fun d => d.county_fips == g.county_fips)
     if ms.isEmpty then [⟨g, none⟩] else ms.map (fun d => ⟨g, some d⟩))
    ++ leftMerge gs daily

/-- The filled value of numeric column `c` in a joined row
(`app.py:250-252`): `pd.to_numeric(gdf_joined[c], errors="coerce").fillna(0)`;
a county with no metrics row has `NaN` in every daily column, hence zero. -/
def filledMetric (jr : JoinedRow) (c : String) : ℚ :=
  match jr.metrics with
  | none => 0
  | some d => toNumericFill0 (d.get c)

/-- The pre-fill value of numeric column `c` in a joined row: `none` models
`NaN` (unmatched county, missing cell, or non-numeric parse failure). -/
def rawMetric (jr : JoinedRow) (c : String) : Option ℚ :=
  match jr.metrics with
  | none => none
  | some d => toNumericCoerce (d.get c)

/-- One numeric metric column of the joined-and-filled frame, as the list
of its per-county values. By construction it is a total list of rationals:
no entry is missing. -/
def filledColumn (geoms : List GeomRow) (daily : DailyTable) (c : String) :
    List ℚ :=
  (leftMerge geoms daily.rows).map (fun jr => filledMetric jr c)

/-- `series.round(0)` in pandas rounds half to even (banker's rounding). -/
def roundHalfEven (q : ℚ) : ℤ :=
  let f := ⌊q⌋
  let r := q - f
  if r < 1/2 then f
  else if 1/2 < r then f + 1
  else if f % 2 = 0 then f else f + 1

/-- The `*_fmt` display column value (`app.py:268-273`): when the source
column is present in the joined frame (i.e. among the daily table's
columns), the filled value rounded to an integer; otherwise zero for
every county. -/
def fmtMetric (daily : DailyTable) (jr : JoinedRow) (c : String) : ℤ :=
  if c ∈ daily.cols then roundHalfEven (filledMetric jr c) else 0

/-! ## Hourly aggregation (`hourly_long`, `app.py:329-353`) -/

/-- One row of the hourly demand table after `load_hourly` (`app.py:52-62`):
identifier zero-padded, hour an integer, demand and supply numeric
(already coerced and zero-filled by the loader). -/
structure HourlyRow where
  county : String
  hour : ℤ
  des_demand : ℚ
  undes_demand : ℚ
  supply : ℚ
  deriving DecidableEq

/-- One row of the aggregated table `agg`: the hour, the two demand sums,
and the constant supply column. `supply = none` models a `NaN` supply
constant. -/
structure AggRow where
  hour : ℤ
  des_demand : ℚ
  undes_demand : ℚ
  supply : Option ℚ
  deriving DecidableEq

/-- `series.max()` after the fill: `none` (pandas `NaN`) on an empty
series, otherwise the maximum. -/
def listMaxQ : List ℚ → Option ℚ
  | [] => none
  | q :: qs => some (qs.foldl max q)

/-- The selected-county supply constant (`app.py:334`):
`float(daily.loc[daily["county_fips"] == fips, "supply"].fillna(0).max())`.
`none` models the `NaN` produced when no daily row matches. -/
def supplyConstSel (daily : DailyTable) (fips : String) : Option ℚ :=
  listMaxQ ((daily.rows.filter (fun d => d.county_fips == fips)).map
    (fun d => cellFillna0 (d.get "supply")))

/-- The statewide supply constant (`app.py:339`):
`float(daily["supply"].fillna(0).sum())`. -/
def supplyConstState (daily : DailyTable) : ℚ :=
  (daily.rows.map (fun d => cellFillna0 (d.get "supply"))).sum

/-- The distinct hours of a set of hourly rows, ascending: the group keys
of `sub.groupby("hour")` (pandas sorts group keys). -/
def sortedHours (rows : List HourlyRow) : List ℤ :=
  List.insertionSort (· ≤ ·) ((rows.map (fun r => r.hour)).dedup)

/-- The aggregated row for one hour (`app.py:342-343`): the demand columns
summed over the rows of that hour, the supply column set to the constant. -/
def mkAggRow (sub : List HourlyRow) (h : ℤ) (sc : Option ℚ) : AggRow :=
  ⟨h,
   ((sub.filter (fun r => r.hour == h)).map (fun r => r.des_demand)).sum,
   ((sub.filter (fun r => r.hour == h)).map (fun r => r.undes_demand)).sum,
   sc⟩

/-- The aggregated table built by `hourly_long` (`app.py:329-343`): filter
to the selected county when the selection is truthy (with that county's
supply constant), otherwise aggregate the whole table (with the statewide
constant); then group by hour and sum the demand columns. -/
def hourlyAgg (hourly : List HourlyRow) (daily : DailyTable)
    (fips : Option String) : List AggRow :=
  if pyTruthy fips then
    let f := fips.getD ""
    let sub := hourly.filter (fun r => r.county == f)
    (sortedHours sub).map (fun h => mkAggRow sub h (supplyConstSel daily f))
  else
    (sortedHours hourly).map
      (fun h => mkAggRow hourly h (some (supplyConstState daily)))

/-! ## CSV export (`app.py:353`, `app.py:393-401`) -/

/-- The header of the downloaded CSV: the column selection
`agg[["hour", "des_demand", "undes_demand", "supply"]]` fixes this order. -/
def csvHeader : List String :=
  ["hour", "des_demand", "undes_demand", "supply"]

/-- One CSV data row: the four cell values of an aggregated row, in header
order, at raw numeric precision (`to_csv` applies no rounding). -/
def csvRow (a : AggRow) : ℤ × ℚ × ℚ × Option ℚ :=
  (a.hour, a.des_demand, a.undes_demand, a.supply)

/-- The data rows of the downloaded CSV, one per aggregated row. -/
def csvRows (agg : List AggRow) : List (ℤ × ℚ × ℚ × Option ℚ) :=
  agg.map csvRow

/-! ## Categorical diagnosis map (`make_categorical_map`, `app.py:104-117`) -/

/-- The default four-label palette of `make_categorical_map`. -/
def defaultPalette : List (String × String) :=
  [("Designated demand near supply capacity (≥85%)", "#f03b20"),
   ("Enough for designated; overflow in undesignated (total > supply)", "#fd8d3c"),
   ("Enough for demand; consistent undesignated observed (total ≤ supply)", "#feb24c"),
   ("No overflow observed", "#74c476")]

/-- The fill color chosen by `style_fn` (`app.py:114-117`):
`palette.get(cat, "#8c8c8c")` where `cat` is the feature's diagnosis
property (`none` when the property is missing). The other style fields
(`color`, `weight`, `fillOpacity`) are constants. -/
def styleFillColor (palette : List (String × String)) (cat : Option String) :
    String :=
  match cat with
  | none => "#8c8c8c"
  | some s => (((palette.find? (fun kv => kv.1 == s)).map Prod.snd)).getD "#8c8c8c"

/-! ## Theorems -/

/-- The click-read phase never changes the suppress-flag; only the
guard-reset phase does. -/
theorem processClicks_ignore (st : SessionState) (p : Option String) :
    (processClicks st p).ignore_next_click = st.ignore_next_click := by
  unfold processClicks
  split <;> rfl

/-- C1: after the explicit clear action (selection emptied, suppress-flag
raised), the next click-processing cycle leaves the selection empty for any
payload and ends with the flag lowered; the flag is lowered at the end of
every cycle in which it was raised, click or not; and the cycle after the
cleared one processes a truthy payload normally. -/
theorem clear_suppresses_exactly_one_cycle (st : SessionState)
    (p₁ p₂ : Option String) (raw : String)
    (hp₂ : p₂ = some raw) (hraw : raw.isEmpty = false) :
    (processCycle (clearSelection st) p₁).selected_fips = none
    ∧ (processCycle (clearSelection st) p₁).ignore_next_click = false
    ∧ (∀ s : SessionState, s.ignore_next_click = true →
        (processCycle s p₁).ignore_next_click = false)
    ∧ (processCycle (processCycle (clearSelection st) p₁) p₂).selected_fips
        = some (sanitizeFips raw) := by
  have hcycle : processCycle (clearSelection st) p₁ =
      { selected_fips := none, ignore_next_click := false } := by
    simp [processCycle, processClicks, resetGuard, clearSelection]
  refine ⟨by rw [hcycle], by rw [hcycle], ?_, ?_⟩
  · intro s hs
    simp [processCycle, resetGuard, processClicks_ignore, hs]
  · rw [hcycle, hp₂]
    simp [processCycle, processClicks, resetGuard, pyTruthy, hraw]

/-- Witness for C1 at a concrete cleared session and stale and fresh
payloads. -/
theorem clear_suppresses_exactly_one_cycle_witness :
    (processCycle (clearSelection ⟨some "18097", false⟩)
        (some "18097")).selected_fips = none
    ∧ (processCycle (clearSelection ⟨some "18097", false⟩)
        (some "18097")).ignore_next_click = false
    ∧ (processCycle (⟨some "18005", true⟩ : SessionState)
        (some "18097")).ignore_next_click = false
    ∧ (processCycle (processCycle (clearSelection ⟨some "18097", false⟩)
        (some "18097")) (some "18005")).selected_fips
        = some (sanitizeFips "18005") := by
  have h := clear_suppresses_exactly_one_cycle ⟨some "18097", false⟩
    (some "18097") (some "18005") "18005" rfl rfl
  exact ⟨h.1, h.2.1, h.2.2.1 ⟨some "18005", true⟩ rfl, h.2.2.2⟩

/-- C2: a truthy click payload processed while the suppress-flag is false
sets the selection to the payload with all non-digit characters removed and
the result left-padded with zeros to 5 characters. -/
theorem click_sets_sanitized_selection (st : SessionState) (raw : String)
    (hguard : st.ignore_next_click = false) (hraw : raw.isEmpty = false) :
    (processCycle st (some raw)).selected_fips
      = some (zfill 5 (removeNonDigits raw)) := by
  simp [processCycle, processClicks, resetGuard, pyTruthy, sanitizeFips,
    hguard, hraw]

/-- Witness for C2: the spec's example, raw payload `"IN-18097"` stored as
`"18097"`. -/
theorem click_sets_sanitized_selection_witness :
    (processCycle ⟨none, false⟩ (some "IN-18097")).selected_fips
      = some "18097" := by
  have h := click_sets_sanitized_selection ⟨none, false⟩ "IN-18097" rfl rfl
  rw [h]
  rfl

/-- C9: the selection stored for a truthy payload (flag down) is a string of
at least 5 characters, all digits; a payload without digits stores
`"00000"`; a payload with more than 5 digits stores all of its digits,
untruncated. -/
theorem stored_selection_digit_shape (st : SessionState) (raw : String)
    (hguard : st.ignore_next_click = false) (hraw : raw.isEmpty = false) :
    ∃ sel : String,
      (processCycle st (some raw)).selected_fips = some sel
      ∧ 5 ≤ sel.length
      ∧ (∀ ch ∈ sel.toList, ch.isDigit = true)
      ∧ (raw.toList.filter Char.isDigit = [] → sel = "00000")
      ∧ (5 < (raw.toList.filter Char.isDigit).length →
          sel = ⟨raw.toList.filter Char.isDigit⟩) := by
  refine ⟨sanitizeFips raw, ?_, ?_, ?_, ?_, ?_⟩
  · simp [processCycle, processClicks, resetGuard, pyTruthy, hguard, hraw]
  · show 5 ≤ (List.replicate (5 - (raw.toList.filter Char.isDigit).length) '0'
      ++ raw.toList.filter Char.isDigit).length
    rw [List.length_append, List.length_replicate]
    omega
  · intro ch hch
    have hch : ch ∈ List.replicate (5 - (raw.toList.filter Char.isDigit).length) '0'
        ++ raw.toList.filter Char.isDigit := hch
    rcases List.mem_append.mp hch with h0 | hd
    · rw [List.eq_of_mem_replicate h0]
      rfl
    · exact List.of_mem_filter hd
  · intro hnil
    show (⟨List.replicate (5 - (raw.toList.filter Char.isDigit).length) '0'
      ++ raw.toList.filter Char.isDigit⟩ : String) = "00000"
    rw [hnil]
    rfl
  · intro hlong
    show (⟨List.replicate (5 - (raw.toList.filter Char.isDigit).length) '0'
      ++ raw.toList.filter Char.isDigit⟩ : String)
      = ⟨raw.toList.filter Char.isDigit⟩
    rw [Nat.sub_eq_zero_of_le (le_of_lt hlong)]
    rfl

/-- Witness for C9 at a payload with more than 5 digits: all seven digits
are stored, untruncated. -/
theorem stored_selection_digit_shape_witness :
    (processCycle ⟨none, false⟩ (some "fips:1809755")).selected_fips
      = some "1809755" := by
  obtain ⟨sel, h1, _, _, _, h5⟩ :=
    stored_selection_digit_shape ⟨none, false⟩ "fips:1809755" rfl rfl
  rw [h1, h5 (by decide)]
  rfl

/-! ### Hourly aggregation -/

/-- The group keys of the aggregation are exactly the hours present in the
grouped rows. -/
theorem mem_sortedHours (rows : List HourlyRow) (h : ℤ) :
    h ∈ sortedHours rows ↔ ∃ r ∈ rows, r.hour = h := by
  unfold sortedHours
  rw [(List.perm_insertionSort _ _).mem_iff, List.mem_dedup, List.mem_map]

/-- The group keys of the aggregation are pairwise distinct. -/
theorem nodup_sortedHours (rows : List HourlyRow) :
    (sortedHours rows).Nodup :=
  ((List.perm_insertionSort _ _).nodup_iff).mpr (List.nodup_dedup _)

/-- Mapping the hour projection over the per-hour aggregated rows recovers
the group keys. -/
theorem map_hour_mkAggRow (sub : List HourlyRow) (sc : Option ℚ)
    (hs : List ℤ) :
    (hs.map (fun h => mkAggRow sub h sc)).map AggRow.hour = hs := by
  rw [List.map_map]
  exact List.map_id _

/-- The selected-county branch of `hourly_long`, unfolded. -/
theorem hourlyAgg_selected_eq (hourly : List HourlyRow) (daily : DailyTable)
    (f : String) (hf : f.isEmpty = false) :
    hourlyAgg hourly daily (some f)
      = (sortedHours (hourly.filter (fun r => r.county == f))).map
          (fun h => mkAggRow (hourly.filter (fun r => r.county == f)) h
            (supplyConstSel daily f)) := by
  simp [hourlyAgg, pyTruthy, hf]

/-- When the daily table has exactly one row for the county and its supply
cell is the number `s`, the selected-county supply constant is `s`. -/
theorem supplyConstSel_unique (daily : DailyTable) (f : String)
    (d : DailyRow) (s : ℚ)
    (hd : daily.rows.filter (fun r => r.county_fips == f) = [d])
    (hs : d.get "supply" = Cell.num s) :
    supplyConstSel daily f = some s := by
  unfold supplyConstSel
  rw [hd]
  simp [cellFillna0, hs, listMaxQ]

/-- C3: for a truthy selected identifier whose daily row is unique with
numeric supply `s`, the aggregation has one row per hour for exactly the
hours present in that county's hourly rows, each row's demand columns are
the sums over that county's rows for that hour, and every row's supply is
the constant `s`. -/
theorem hourlyAgg_selected_county (hourly : List HourlyRow)
    (daily : DailyTable) (f : String) (d : DailyRow) (s : ℚ)
    (hf : f.isEmpty = false)
    (hd : daily.rows.filter (fun r => r.county_fips == f) = [d])
    (hs : d.get "supply" = Cell.num s) :
    ((hourlyAgg hourly daily (some f)).map AggRow.hour).Nodup
    ∧ (∀ h : ℤ, h ∈ (hourlyAgg hourly daily (some f)).map AggRow.hour ↔
        ∃ r ∈ hourly.filter (fun r => r.county == f), r.hour = h)
    ∧ (∀ a ∈ hourlyAgg hourly daily (some f),
        a.des_demand = (((hourly.filter (fun r => r.county == f)).filter
            (fun r => r.hour == a.hour)).map (fun r => r.des_demand)).sum
        ∧ a.undes_demand = (((hourly.filter (fun r => r.county == f)).filter
            (fun r => r.hour == a.hour)).map (fun r => r.undes_demand)).sum
        ∧ a.supply = some s) := by
  have he := hourlyAgg_selected_eq hourly daily f hf
  have hmap : (hourlyAgg hourly daily (some f)).map AggRow.hour
      = sortedHours (hourly.filter (fun r => r.county == f)) := by
    rw [he, map_hour_mkAggRow]
  refine ⟨?_, ?_, ?_⟩
  · rw [hmap]
    exact nodup_sortedHours _
  · intro h
    rw [hmap]
    exact mem_sortedHours _ h
  · intro a ha
    rw [he] at ha
    obtain ⟨h, _, rfl⟩ := List.mem_map.mp ha
    exact ⟨rfl, rfl, supplyConstSel_unique daily f d s hd hs⟩

/-- Concrete daily metrics row used by the witnesses. -/
def wDailyRow : DailyRow :=
  ⟨"18097", some "No overflow observed",
   fun c => if c == "supply" then Cell.num 120 else Cell.num 3⟩

/-- Concrete daily metrics table used by the witnesses. -/
def wDaily : DailyTable := ⟨["supply"], [wDailyRow]⟩

/-- Concrete hourly table used by the witnesses. -/
def wHourly : List HourlyRow :=
  [⟨"18097", 0, 5, 2, 120⟩, ⟨"18097", 1, 7, 1, 120⟩, ⟨"18003", 0, 4, 4, 50⟩]

/-- Evaluation of the selected-county aggregation on the witness tables. -/
theorem wAgg_selected : hourlyAgg wHourly wDaily (some "18097")
    = [⟨0, 5, 2, some 120⟩, ⟨1, 7, 1, some 120⟩] := by
  simp only [hourlyAgg, pyTruthy, wHourly, wDaily, wDailyRow, sortedHours,
    mkAggRow, supplyConstSel, listMaxQ, cellFillna0, List.insertionSort,
    List.orderedInsert, List.dedup, List.pwFilter, List.filter, List.map,
    Option.getD]
  norm_num
  rfl

/-- Witness for C3 at the concrete tables: distinct hour keys, hour `1`
present, and the supply of an aggregated row equal to the county's daily
supply value. -/
theorem hourlyAgg_selected_county_witness :
    ((hourlyAgg wHourly wDaily (some "18097")).map AggRow.hour).Nodup
    ∧ (1 : ℤ) ∈ (hourlyAgg wHourly wDaily (some "18097")).map AggRow.hour
    ∧ (AggRow.mk 0 5 2 (some 120)).supply = some 120 := by
  have h := hourlyAgg_selected_county wHourly wDaily "18097" wDailyRow 120
    rfl rfl rfl
  have hmem : AggRow.mk 0 5 2 (some 120) ∈ hourlyAgg wHourly wDaily
      (some "18097") := by
    rw [wAgg_selected]
    exact List.mem_cons_self _ _
  exact ⟨h.1, (h.2.1 1).mpr ⟨⟨"18097", 1, 7, 1, 120⟩, by simp [wHourly], rfl⟩,
    (h.2.2 _ hmem).2.2⟩

/-- C4: with no selection, the aggregation groups the whole hourly table by
hour (one row per hour present, demand summed over all counties) and every
row's supply is the sum of all counties' zero-filled supply values from the
daily metrics table. -/
theorem hourlyAgg_statewide (hourly : List HourlyRow) (daily : DailyTable) :
    ((hourlyAgg hourly daily none).map AggRow.hour).Nodup
    ∧ (∀ h : ℤ, h ∈ (hourlyAgg hourly daily none).map AggRow.hour ↔
        ∃ r ∈ hourly, r.hour = h)
    ∧ (∀ a ∈ hourlyAgg hourly daily none,
        a.des_demand = ((hourly.filter (fun r => r.hour == a.hour)).map
            (fun r => r.des_demand)).sum
        ∧ a.undes_demand = ((hourly.filter (fun r => r.hour == a.hour)).map
            (fun r => r.undes_demand)).sum
        ∧ a.supply = some ((daily.rows.map
            (fun d => cellFillna0 (d.get "supply"))).sum)) := by
  have he : hourlyAgg hourly daily none
      = (sortedHours hourly).map
          (fun h => mkAggRow hourly h (some (supplyConstState daily))) := by
    simp [hourlyAgg, pyTruthy]
  have hmap : (hourlyAgg hourly daily none).map AggRow.hour
      = sortedHours hourly := by
    rw [he, map_hour_mkAggRow]
  refine ⟨?_, ?_, ?_⟩
  · rw [hmap]
    exact nodup_sortedHours _
  · intro h
    rw [hmap]
    exact mem_sortedHours _ h
  · intro a ha
    rw [he] at ha
    obtain ⟨h, _, rfl⟩ := List.mem_map.mp ha
    exact ⟨rfl, rfl, rfl⟩

/-- Witness for C4 at the concrete tables: instantiates the statewide
aggregation facts at hour `0` and a concrete aggregated row. -/
theorem hourlyAgg_statewide_witness :
    ((hourlyAgg wHourly wDaily none).map AggRow.hour).Nodup
    ∧ (0 : ℤ) ∈ (hourlyAgg wHourly wDaily none).map AggRow.hour
    ∧ (AggRow.mk 0 9 6 (some 120)).supply
        = some ((wDaily.rows.map (fun d => cellFillna0 (d.get "supply"))).sum) := by
  have h := hourlyAgg_statewide wHourly wDaily
  have heval : hourlyAgg wHourly wDaily none
      = [⟨0, 9, 6, some 120⟩, ⟨1, 7, 1, some 120⟩] := by
    simp only [hourlyAgg, pyTruthy, wHourly, wDaily, wDailyRow, sortedHours,
      mkAggRow, supplyConstState, cellFillna0, List.insertionSort,
      List.orderedInsert, List.dedup, List.pwFilter, List.filter, List.map]
    norm_num
  have hmem : AggRow.mk 0 9 6 (some 120) ∈ hourlyAgg wHourly wDaily none := by
    rw [heval]
    exact List.mem_cons_self _ _
  exact ⟨h.1, (h.2.1 0).mpr ⟨⟨"18097", 0, 5, 2, 120⟩, by simp [wHourly], rfl⟩,
    (h.2.2 _ hmem).2.2⟩

/-- C10: when the selected identifier matches no daily row, the supply
constant is the maximum of an empty series (`NaN`, modelled `none`), so
every aggregated row and every exported CSV row carries a `NaN` supply. -/
theorem hourlyAgg_missing_county_nan_supply (hourly : List HourlyRow)
    (daily : DailyTable) (f : String)
    (hf : f.isEmpty = false)
    (hd : daily.rows.filter (fun r => r.county_fips == f) = []) :
    supplyConstSel daily f = none
    ∧ (∀ a ∈ hourlyAgg hourly daily (some f), a.supply = none)
    ∧ (∀ row ∈ csvRows (hourlyAgg hourly daily (some f)),
        row.2.2.2 = none) := by
  have hsc : supplyConstSel daily f = none := by
    unfold supplyConstSel
    rw [hd]
    rfl
  have he := hourlyAgg_selected_eq hourly daily f hf
  have hsup : ∀ a ∈ hourlyAgg hourly daily (some f), a.supply = none := by
    intro a ha
    rw [he] at ha
    obtain ⟨h, _, rfl⟩ := List.mem_map.mp ha
    exact hsc
  refine ⟨hsc, hsup, ?_⟩
  intro row hrow
  obtain ⟨a, ha, rfl⟩ := List.mem_map.mp hrow
  exact hsup a ha

/-- Concrete daily table with no rows, used by the C10 witness. -/
def wDailyEmpty : DailyTable := ⟨["supply"], []⟩

/-- Witness for C10: selecting a county absent from the daily table yields
a `NaN` supply constant and a `NaN` supply in a concrete aggregated row. -/
theorem hourlyAgg_missing_county_nan_supply_witness :
    supplyConstSel wDailyEmpty "18097" = none
    ∧ (AggRow.mk 0 5 2 none) ∈ hourlyAgg wHourly wDailyEmpty (some "18097")
    ∧ (AggRow.mk 0 5 2 none).supply = none := by
  have h := hourlyAgg_missing_county_nan_supply wHourly wDailyEmpty "18097"
    rfl rfl
  have heval : hourlyAgg wHourly wDailyEmpty (some "18097")
      = [⟨0, 5, 2, none⟩, ⟨1, 7, 1, none⟩] := by
    simp only [hourlyAgg, pyTruthy, wHourly, wDailyEmpty, sortedHours,
      mkAggRow, supplyConstSel, listMaxQ, cellFillna0, List.insertionSort,
      List.orderedInsert, List.dedup, List.pwFilter, List.filter, List.map,
      Option.getD]
    norm_num
    rfl
  have hmem : AggRow.mk 0 5 2 none ∈ hourlyAgg wHourly wDailyEmpty
      (some "18097") := by
    rw [heval]
    exact List.mem_cons_self _ _
  exact ⟨h.1, hmem, h.2.1 _ hmem⟩

/-- C7: the downloadable CSV has exactly the columns hour, designated
demand, undesignated demand, supply, in that order, and its data rows carry
the aggregation output's values exactly, with no rounding. -/
theorem csv_columns_and_exact_values (hourly : List HourlyRow)
    (daily : DailyTable) (fips : Option String) :
    csvHeader = ["hour", "des_demand", "undes_demand", "supply"]
    ∧ csvRows (hourlyAgg hourly daily fips)
        = (hourlyAgg hourly daily fips).map
            (fun a => (a.hour, a.des_demand, a.undes_demand, a.supply))
    ∧ (csvRow ⟨0, 5/2, 1, some 120⟩).2.1 = 5/2
    ∧ ((roundHalfEven (5/2) : ℚ) ≠ 5/2) := by
  refine ⟨rfl, rfl, rfl, ?_⟩
  have hfl : ⌊(5/2 : ℚ)⌋ = 2 := by norm_num
  rw [roundHalfEven]
  norm_num [hfl]

/-! ### Join, fill, and display formatting -/

/-- Any daily row paired into the merge result comes from the daily table. -/
theorem leftMerge_metrics_mem (geoms : List GeomRow) (rows : List DailyRow) :
    ∀ jr ∈ leftMerge geoms rows, ∀ d, jr.metrics = some d → d ∈ rows := by
  induction geoms with
  | nil =>
    intro jr hjr
    cases hjr
  | cons g gs ih =>
    intro jr hjr d hd
    rw [leftMerge] at hjr
    rcases List.mem_append.mp hjr with h1 | h2
    · by_cases he : (rows.filter
          (fun r => r.county_fips == g.county_fips)).isEmpty
      · rw [if_pos he] at h1
        rw [List.mem_singleton.mp h1] at hd
        cases hd
      · rw [if_neg he] at h1
        obtain ⟨d2, hd2, hjr2⟩ := List.mem_map.mp h1
        rw [← hjr2] at hd
        cases hd
        exact List.mem_of_mem_filter hd2
    · exact ih jr h2 d hd

/-- Every geometry row appears in the merge result (left join, geometry
authoritative). -/
theorem leftMerge_geom_total (geoms : List GeomRow) (rows : List DailyRow) :
    ∀ g ∈ geoms, ∃ jr ∈ leftMerge geoms rows, jr.geom = g := by
  induction geoms with
  | nil =>
    intro g hg
    cases hg
  | cons g0 gs ih =>
    intro g hg
    rcases List.mem_cons.mp hg with rfl | hmem
    · by_cases he : (rows.filter
          (fun r => r.county_fips == g.county_fips)).isEmpty
      · refine ⟨⟨g, none⟩, ?_, rfl⟩
        rw [leftMerge, if_pos he]
        exact List.mem_append_left _ (List.mem_singleton_self _)
      · obtain ⟨d, hd⟩ := List.exists_mem_of_ne_nil
          (rows.filter (fun r => r.county_fips == g.county_fips))
          (fun hnil => he (by rw [hnil]; rfl))
        refine ⟨⟨g, some d⟩, ?_, rfl⟩
        rw [leftMerge, if_neg he]
        exact List.mem_append_left _ (List.mem_map.mpr ⟨d, hd, rfl⟩)
    · obtain ⟨jr, hjr, hgeom⟩ := ih g hmem
      refine ⟨jr, ?_, hgeom⟩
      rw [leftMerge]
      exact List.mem_append_right _ hjr

/-- C6: the merge is a left join with geometry authoritative (every county
of the geometry collection appears in the result); the fill equals the
coerced value with `NaN` defaulted to zero, so unmatched counties,
missing cells and non-numeric parse failures all become zero; and the
formatted display column is the rounded filled value when the source
column exists and zero for every county when it is absent. -/
theorem join_fill_fmt_spec (geoms : List GeomRow) (daily : DailyTable)
    (c : String) :
    (∀ g ∈ geoms, ∃ jr ∈ leftMerge geoms daily.rows, jr.geom = g)
    ∧ (∀ jr : JoinedRow,
        filledMetric jr c = (rawMetric jr c).getD 0
        ∧ (jr.metrics = none → filledMetric jr c = 0)
        ∧ (∀ s, jr.metrics.map (fun d => d.get c) = some (Cell.str s) →
            filledMetric jr c = 0)
        ∧ (jr.metrics.map (fun d => d.get c) = some Cell.na →
            filledMetric jr c = 0))
    ∧ (c ∈ daily.cols → ∀ jr : JoinedRow,
        fmtMetric daily jr c = roundHalfEven (filledMetric jr c))
    ∧ (c ∉ daily.cols → ∀ jr : JoinedRow, fmtMetric daily jr c = 0) := by
  refine ⟨leftMerge_geom_total geoms daily.rows, ?_, ?_, ?_⟩
  · intro jr
    refine ⟨?_, ?_, ?_, ?_⟩
    · rcases jr with ⟨g, _ | d⟩
      · rfl
      · rcases hcell : d.get c with q | s | _ <;>
          simp [filledMetric, rawMetric, toNumericFill0, toNumericCoerce,
            hcell]
    · intro hnone
      rcases jr with ⟨g, m⟩
      cases hnone
      rfl
    · intro s hcell
      rcases jr with ⟨g, _ | d⟩
      · rfl
      · have hc2 : d.get c = Cell.str s := by
          simpa using hcell
        simp [filledMetric, toNumericFill0, hc2]
    · intro hcell
      rcases jr with ⟨g, _ | d⟩
      · rfl
      · have hc2 : d.get c = Cell.na := by
          simpa using hcell
        simp [filledMetric, toNumericFill0, hc2]
  · intro hc jr
    simp [fmtMetric, hc]
  · intro hc jr
    simp [fmtMetric, hc]

/-- Concrete geometry rows used by the join witnesses: one county with a
daily metrics row, one without. -/
def wGeoms : List GeomRow := [⟨"18097", "Marion"⟩, ⟨"18005", "Bartholomew"⟩]

/-- Witness for C6: on the concrete tables, the metrics-less county is in
the joined result with zero fill, and an absent display column formats to
zero. -/
theorem join_fill_fmt_spec_witness :
    (⟨⟨"18005", "Bartholomew"⟩, none⟩ : JoinedRow).geom
        = (⟨"18005", "Bartholomew"⟩ : GeomRow)
    ∧ (⟨⟨"18005", "Bartholomew"⟩, none⟩ : JoinedRow)
        ∈ leftMerge wGeoms wDaily.rows
    ∧ filledMetric ⟨⟨"18005", "Bartholomew"⟩, none⟩ "supply" = 0
    ∧ fmtMetric wDaily ⟨⟨"18097", "Marion"⟩, some wDailyRow⟩
        "acc_total_demand" = 0 := by
  have h := join_fill_fmt_spec wGeoms wDaily "supply"
  have h2 := join_fill_fmt_spec wGeoms wDaily "acc_total_demand"
  refine ⟨rfl, ?_, ?_, ?_⟩
  · rw [show leftMerge wGeoms wDaily.rows
        = [⟨⟨"18097", "Marion"⟩, some wDailyRow⟩,
           ⟨⟨"18005", "Bartholomew"⟩, none⟩] from rfl]
    exact List.mem_cons_of_mem _ (List.mem_singleton_self _)
  · exact (h.2.1 ⟨⟨"18005", "Bartholomew"⟩, none⟩).2.1 rfl
  · exact h2.2.2.2 (by simp [wDaily]) ⟨⟨"18097", "Marion"⟩, some wDailyRow⟩

/-- Concrete daily table holding a negative metric value, refuting the
unconditional non-negativity claim. -/
def cexDailyRow : DailyRow :=
  ⟨"18097", some "No overflow observed", fun _ => Cell.num (-1)⟩

/-- Concrete daily table for the negative-value counterexample. -/
def cexDaily : DailyTable := ⟨["supply"], [cexDailyRow]⟩

/-- Concrete geometry for the negative-value counterexample. -/
def cexGeoms : List GeomRow := [⟨"18097", "Marion"⟩]

/-- Counterexample to C5 as stated: the join-and-fill stage only coerces
missing and non-numeric entries to zero; a negative numeric value in the
daily table survives the fill, so the filled column is not non-negative. -/
theorem join_fill_nonneg_cex :
    filledColumn cexGeoms cexDaily "supply" = [(-1 : ℚ)]
    ∧ ¬ (0 : ℚ) ≤ -1 := by
  constructor
  · show (leftMerge cexGeoms cexDaily.rows).map
      (fun jr => filledMetric jr "supply") = [(-1 : ℚ)]
    rw [show leftMerge cexGeoms cexDaily.rows
        = [⟨⟨"18097", "Marion"⟩, some cexDailyRow⟩] from rfl]
    rfl
  · norm_num

/-- C5 (amended): after the join, every numeric metric column is a total
list of rationals, one entry per joined row, with no missing values
(missing and non-numeric entries coerced to zero); and when every numeric
value present in the daily table is non-negative, so is every filled
value. -/
theorem join_fill_no_missing_nonneg (geoms : List GeomRow)
    (daily : DailyTable) (c : String)
    (hpos : ∀ d ∈ daily.rows, ∀ q : ℚ, d.get c = Cell.num q → 0 ≤ q) :
    (filledColumn geoms daily c).length = (leftMerge geoms daily.rows).length
    ∧ ∀ q ∈ filledColumn geoms daily c, 0 ≤ q := by
  refine ⟨List.length_map _ _, ?_⟩
  intro q hq
  obtain ⟨jr, hjr, rfl⟩ := List.mem_map.mp hq
  rcases hm : jr.metrics with _ | d
  · simp [filledMetric, hm]
  · have hd : d ∈ daily.rows := leftMerge_metrics_mem geoms daily.rows jr hjr d hm
    rcases hcell : d.get c with qv | s | _
    · have := hpos d hd qv hcell
      simpa [filledMetric, hm, toNumericFill0, hcell] using this
    · simp [filledMetric, hm, toNumericFill0, hcell]
    · simp [filledMetric, hm, toNumericFill0, hcell]

/-- Witness for C5 (amended) on the concrete non-negative tables. -/
theorem join_fill_no_missing_nonneg_witness :
    (filledColumn wGeoms wDaily "supply").length
        = (leftMerge wGeoms wDaily.rows).length
    ∧ (0 : ℚ) ≤ 120
    ∧ (120 : ℚ) ∈ filledColumn wGeoms wDaily "supply" := by
  have hpos : ∀ d ∈ wDaily.rows, ∀ q : ℚ, d.get "supply" = Cell.num q →
      0 ≤ q := by
    intro d hd q hq
    rw [List.mem_singleton.mp hd] at hq
    have : Cell.num 120 = Cell.num q := hq
    cases this
    norm_num
  have h := join_fill_no_missing_nonneg wGeoms wDaily "supply" hpos
  have hmem : (120 : ℚ) ∈ filledColumn wGeoms wDaily "supply" := by
    show (120 : ℚ) ∈ (leftMerge wGeoms wDaily.rows).map
      (fun jr => filledMetric jr "supply")
    rw [show leftMerge wGeoms wDaily.rows
        = [⟨⟨"18097", "Marion"⟩, some wDailyRow⟩,
           ⟨⟨"18005", "Bartholomew"⟩, none⟩] from rfl]
    exact List.mem_cons_self _ _
  exact ⟨h.1, h.2 120 hmem, hmem⟩

/-! ### Categorical diagnosis map -/

/-- C8: the style function assigns each of the four known diagnosis labels
its fixed palette color, and the fallback gray `#8c8c8c` to a missing
diagnosis and to every unrecognized label. -/
theorem diagnosis_style_colors :
    styleFillColor defaultPalette
      (some "Designated demand near supply capacity (≥85%)") = "#f03b20"
    ∧ styleFillColor defaultPalette
      (some "Enough for designated; overflow in undesignated (total > supply)")
        = "#fd8d3c"
    ∧ styleFillColor defaultPalette
      (some "Enough for demand; consistent undesignated observed (total ≤ supply)")
        = "#feb24c"
    ∧ styleFillColor defaultPalette (some "No overflow observed") = "#74c476"
    ∧ styleFillColor defaultPalette none = "#8c8c8c"
    ∧ ∀ s : String, s ∉ defaultPalette.map Prod.fst →
        styleFillColor defaultPalette (some s) = "#8c8c8c" := by
  refine ⟨rfl, rfl, rfl, rfl, rfl, ?_⟩
  intro s hs
  have hfind : defaultPalette.find? (fun kv => kv.1 == s) = none := by
    rw [List.find?_eq_none]
    intro kv hkv hbeq
    exact hs (List.mem_map.mpr ⟨kv, hkv, eq_of_beq hbeq⟩)
  simp [styleFillColor, hfind]

/-- Witness for C8: an unrecognized diagnosis label gets the fallback
gray. -/
theorem diagnosis_style_colors_witness :
    styleFillColor defaultPalette (some "mystery label") = "#8c8c8c" :=
  diagnosis_style_colors.2.2.2.2.2 "mystery label" (by simp [defaultPalette])

end InParking
